import Mathlib

/-!
Verification of the shopping-cart backend (`shopping_cart_rust`).

The definitions below are a shallow embedding of the Rust sources:

* `src/cart/models.rs`   — `CartItem`, `AddToCartInput`, `CheckoutInput`,
  together with their serde deserialization behaviour (quantity is a `u32`
  defaulting to 1, `extra` captures the flattened remaining fields);
* `src/cart/helpers.rs`  — `update_cart_with_new_items`, `format_item_summary`,
  `get_or_default_cart_id`;
* `src/helpers.rs`       — `get_or_create_cart_id`;
* `src/cart/handlers.rs` — the REST `sync_cart` endpoint;
* `src/cart/state.rs`    — the `DashMap<String, Vec<CartItem>>` cart store,
  modelled as an association list with DashMap's insert/remove semantics;
* `src/mcp/handlers.rs`  — `handle_mcp` dispatch, `handle_tool_call`,
  `handle_add_to_cart_tool`, `handle_checkout_tool`.

Rust `u32` arithmetic is modelled as `Nat` together with reduction modulo
`2 ^ 32` at the one place the code adds quantities (release-mode wrapping
semantics).  The random UUID generated for an absent cart id is modelled as
an explicit `fresh` argument.  JSON values are a small inductive `Json`;
JSON numbers are rationals so that fractional inputs are representable.
-/

/-- JSON values (`serde_json::Value`).  Numbers are modelled as rationals so
that non-integral inputs are representable; objects are association lists. -/
inductive Json where
  | null : Json
  | bool (b : Bool) : Json
  | num (q : ℚ) : Json
  | str (s : String) : Json
  | arr (elems : List Json) : Json
  | obj (fields : List (String × Json)) : Json

/-- An item of a cart (`CartItem` in `src/cart/models.rs`): a name, a `u32`
quantity and the flattened bag of extra fields. -/
structure CartItem where
  name : String
  quantity : Nat
  extra : List (String × Json)

/-- Rust release-mode `u32` addition: wraps modulo `2 ^ 32`. -/
def u32Add (a b : Nat) : Nat := (a + b) % 2 ^ 32

/-- One iteration of the loop in `update_cart_with_new_items`
(`src/cart/helpers.rs`): find the first entry with the incoming name and bump
its quantity (`existing.quantity += incoming.quantity`), otherwise push the
incoming item at the end. -/
def addIncoming : List CartItem → CartItem → List CartItem
  | [], inc => [inc]
  | i :: rest, inc =>
      if i.name = inc.name then
        { i with quantity := u32Add i.quantity inc.quantity } :: rest
      else
        i :: addIncoming rest inc

/-- Model of `update_cart_with_new_items` (`src/cart/helpers.rs`): a left fold of
`addIncoming` over the incoming items. -/
def update_cart_with_new_items (cart_items new_items : List CartItem) : List CartItem :=
  new_items.foldl addIncoming cart_items

/-- The names of a cart's items, in order. -/
def cartNames (l : List CartItem) : List String := l.map (·.name)

/-- Total quantity stored in `l` under name `n` (sum over all entries whose
name is `n`; with unique names this is the single entry's quantity, or 0). -/
def qtyOf (l : List CartItem) (n : String) : Nat :=
  ((l.filter (fun i => decide (i.name = n))).map (·.quantity)).sum

/-- First-seen deduplication, accumulating onto `acc`. -/
def firstSeenFrom (acc : List String) : List String → List String
  | [] => acc
  | x :: xs => firstSeenFrom (if x ∈ acc then acc else acc ++ [x]) xs

/-- The distinct elements of a list in first-seen order. -/
def firstSeen (l : List String) : List String := firstSeenFrom [] l

/-- Model of `format_item_summary` (`src/cart/helpers.rs`):
`"2x Apple, 1x Banana"`-style rendering. -/
def format_item_summary (items : List CartItem) : String :=
  String.intercalate ", " (items.map (fun i => toString i.quantity ++ "x " ++ i.name))

/-- Model of `get_or_create_cart_id` (`src/helpers.rs`): the supplied id, or a fresh
UUID (modelled by the explicit `fresh` argument) when absent. -/
def get_or_create_cart_id (cart_id : Option String) (fresh : String) : String :=
  cart_id.getD fresh

/-- Model of `get_or_default_cart_id` (`src/cart/helpers.rs`): the supplied id or the
given default (session) id. -/
def get_or_default_cart_id (cart_id : Option String) (default_id : String) : String :=
  cart_id.getD default_id

/-- The cart store (`DashMap<String, Vec<CartItem>>` in `src/cart/state.rs`),
modelled as an association list keyed by cart id. -/
abbrev Store := List (String × List CartItem)

/-- Map lookup: the value of the first entry with the given key. -/
def Store.lookup : Store → String → Option (List CartItem)
  | [], _ => none
  | e :: rest, k => if e.1 = k then some e.2 else Store.lookup rest k

/-- Model of `DashMap::insert`: replace the value at the key, or append a new entry. -/
def Store.insert : Store → String → List CartItem → Store
  | [], k, v => [(k, v)]
  | e :: rest, k, v =>
      if e.1 = k then (k, v) :: rest else e :: Store.insert rest k v

/-- Model of `DashMap::remove`: take out the entry with the given key, returning the
removed value (if any) together with the remaining store. -/
def Store.remove : Store → String → Option (List CartItem) × Store
  | [], _ => (none, [])
  | e :: rest, k =>
      if e.1 = k then (some e.2, rest)
      else
        let r := Store.remove rest k
        (r.1, e :: r.2)

-- Sanity checks on the merge algorithm (spec §8 round-trip example).
example :
    qtyOf (update_cart_with_new_items
      (update_cart_with_new_items [] [⟨"Apple", 3, []⟩, ⟨"Banana", 2, []⟩])
      [⟨"Apple", 2, []⟩]) "Apple" = 5 := by decide

example :
    cartNames (update_cart_with_new_items
      (update_cart_with_new_items [] [⟨"Apple", 3, []⟩, ⟨"Banana", 2, []⟩])
      [⟨"Apple", 2, []⟩]) = ["Apple", "Banana"] := by decide

example : format_item_summary [⟨"Apple", 2, []⟩, ⟨"Banana", 1, []⟩] = "2x Apple, 1x Banana" := rfl

/-- Model of `serde_json::Value::get` on an object followed by clone: the value of the
first field with the given key; `none` for non-objects or missing keys. -/
def Json.getField : Json → String → Option Json
  | .obj fields, k => (fields.find? (fun e => e.1 == k)).map (·.2)
  | _, _ => none

/-- Model of `Value::as_str`. -/
def Json.asStr : Json → Option String
  | .str s => some s
  | _ => none

/-- serde deserialization of a `u32` from a JSON number: accepted exactly when
the number is an integer in `[0, 2 ^ 32)`. -/
def parseU32 : Json → Except String Nat
  | .num q =>
      if q.den = 1 ∧ 0 ≤ q.num ∧ q.num < 2 ^ 32 then .ok q.num.toNat
      else .error "invalid quantity value"
  | _ => .error "invalid type for quantity"

/-- serde deserialization of `CartItem` (`src/cart/models.rs`): `name` is a
required string, `quantity` a `u32` defaulting to 1 when the key is absent,
and every other field is captured verbatim in the flattened `extra` bag. -/
def parseCartItem : Json → Except String CartItem
  | .obj fields =>
      match Json.getField (.obj fields) "name" with
      | some (.str s) =>
          let extra := fields.filter (fun e => !(e.1 == "name") && !(e.1 == "quantity"))
          match Json.getField (.obj fields) "quantity" with
          | none => .ok ⟨s, 1, extra⟩
          | some j => (parseU32 j).map (fun q => ⟨s, q, extra⟩)
      | some _ => .error "invalid type for name"
      | none => .error "missing field name"
  | _ => .error "invalid type for CartItem"

/-- serde deserialization of a `Vec<CartItem>`: the first failing element's
error, or the list of parsed items. -/
def parseItems : List Json → Except String (List CartItem)
  | [] => .ok []
  | j :: rest => do
      let i ← parseCartItem j
      let is ← parseItems rest
      .ok (i :: is)

/-- serde deserialization of an `Option<String>` field value: `null` becomes
`none`, a string becomes `some`, anything else is a type error. -/
def parseOptString : Json → Except String (Option String)
  | .null => .ok none
  | .str s => .ok (some s)
  | _ => .error "invalid type for cartId"

/-- Model of `AddToCartInput` (`src/cart/models.rs`): required `items` array and
optional `cartId` string. -/
structure AddToCartInput where
  items : List CartItem
  cart_id : Option String

/-- serde deserialization of `AddToCartInput`: the input must be an object
with a required `items` array of `CartItem`s and an optional `cartId` string;
unknown fields are ignored. -/
def parseAddToCartInput : Json → Except String AddToCartInput
  | .obj fields =>
      match Json.getField (.obj fields) "items" with
      | some (.arr elems) => do
          let items ← parseItems elems
          let cid ←
            match Json.getField (.obj fields) "cartId" with
            | none => Except.ok none
            | some j => parseOptString j
          .ok ⟨items, cid⟩
      | some _ => .error "invalid type for items"
      | none => .error "missing field items"
  | _ => .error "invalid type for AddToCartInput"

/-- serde deserialization of `CheckoutInput` (`src/cart/models.rs`): an object
with an optional `cartId` string. -/
def parseCheckoutInput : Json → Except String (Option String)
  | .obj fields =>
      match Json.getField (.obj fields) "cartId" with
      | none => .ok none
      | some j => parseOptString j
  | _ => .error "invalid type for CheckoutInput"

/-- Result of the add_to_cart tool (the `json!` literal built by
`handle_add_to_cart_tool`): the human-readable text of the single `content`
entry and the `structuredContent` fields. -/
structure AddToCartResult where
  text : String
  cartId : String
  items : List CartItem

/-- Result of the checkout tool (the `json!` literals built by
`handle_checkout_tool`): text plus the `structuredContent` fields; the code
always emits `items: []` and `checkout: true`. -/
structure CheckoutResult where
  text : String
  cartId : String
  items : List CartItem
  checkout : Bool

/-- Model of `handle_add_to_cart_tool` (`src/mcp/handlers.rs`): deserialize the
arguments, resolve the cart id, merge into the (created-if-absent) stored
cart, and report the post-merge cart. -/
def handle_add_to_cart_tool (store : Store) (args : Json) (fresh : String) :
    Store × Except String AddToCartResult :=
  match parseAddToCartInput args with
  | .error e => (store, .error ("Invalid arguments: " ++ e))
  | .ok input =>
      let cart_id := get_or_create_cart_id input.cart_id fresh
      let cart_items := (store.lookup cart_id).getD []
      let merged := update_cart_with_new_items cart_items input.items
      (store.insert cart_id merged,
        .ok ⟨"Cart " ++ cart_id ++ " now has " ++ toString merged.length ++ " item(s).",
          cart_id, merged⟩)

/-- Model of `handle_checkout_tool` (`src/mcp/handlers.rs`): deserialize the arguments,
resolve the cart id, remove the cart from the store, and report either the
removed items' summary or `"Cart is empty."`. -/
def handle_checkout_tool (store : Store) (args : Json) (fresh : String) :
    Store × Except String CheckoutResult :=
  match parseCheckoutInput args with
  | .error e => (store, .error ("Invalid arguments: " ++ e))
  | .ok cid =>
      let cart_id := get_or_create_cart_id cid fresh
      match store.remove cart_id with
      | (some items, rest) =>
          (rest, .ok ⟨"Checked out now: " ++ format_item_summary items, cart_id, [], true⟩)
      | (none, rest) => (rest, .ok ⟨"Cart is empty.", cart_id, [], true⟩)

/-- Model of `TOOL_NAME` (`src/mcp/models.rs`). -/
def TOOL_NAME : String := "add_to_cart"

/-- Model of `CHECKOUT_TOOL_NAME` (`src/mcp/models.rs`). -/
def CHECKOUT_TOOL_NAME : String := "checkout"

/-- A successful tool result, one of the two tools' payloads. -/
inductive ToolOk where
  | add (r : AddToCartResult)
  | co (r : CheckoutResult)

/-- Model of `handle_tool_call` (`src/mcp/handlers.rs`): dispatch on the tool name. -/
def handle_tool_call (store : Store) (name : String) (args : Json) (fresh : String) :
    Store × Except String ToolOk :=
  if name = TOOL_NAME then
    let r := handle_add_to_cart_tool store args fresh
    (r.1, r.2.map .add)
  else if name = CHECKOUT_TOOL_NAME then
    let r := handle_checkout_tool store args fresh
    (r.1, r.2.map .co)
  else
    (store, .error ("Unknown tool: " ++ name))

/-- Model of `sync_cart` (`src/cart/handlers.rs`): resolve the cart id from the payload
or the session id and unconditionally overwrite the stored cart with the
payload's items, answering `{status: "updated", cartId}`. -/
def sync_cart (store : Store) (payload : AddToCartInput) (session_id : String) :
    Store × String × String :=
  let cart_id := get_or_default_cart_id payload.cart_id session_id
  (store.insert cart_id payload.items, "updated", cart_id)

-- Sanity checks for the parsers.
example :
    parseCartItem (.obj [("name", .str "Apple")]) = .ok ⟨"Apple", 1, []⟩ := rfl

example :
    parseCartItem (.obj [("name", .str "Apple"), ("quantity", .num 3), ("price", .num 2)])
      = .ok ⟨"Apple", 3, [("price", .num 2)]⟩ := rfl

example : parseCartItem (.obj [("quantity", .num 3)]) = .error "missing field name" := rfl

example :
    parseCartItem (.obj [("name", .str "A"), ("quantity", .num (-1))])
      = .error "invalid quantity value" := rfl

example :
    parseCartItem (.obj [("name", .str "A"), ("quantity", .num (mkRat 3 2))])
      = .error "invalid quantity value" := rfl

example :
    parseAddToCartInput (.obj [("items", .arr [.obj [("name", .str "A")]]), ("cartId", .str "c")])
      = .ok ⟨[⟨"A", 1, []⟩], some "c"⟩ := rfl

example : parseAddToCartInput .null = .error "invalid type for AddToCartInput" := rfl

example : parseCheckoutInput (.obj []) = .ok none := rfl

/-- Model of `JsonRpcRequest` (`src/mcp/models.rs`): optional `jsonrpc`, required
`method`, optional `params` and `id`. -/
structure JsonRpcRequest where
  jsonrpc : Option String
  method : String
  params : Option Json
  id : Option Json

/-- serde deserialization of an optional JSON field into `Option Json` for an
`Option<Value>` struct field: absent or `null` becomes `none`. -/
def optField (fields : List (String × Json)) (k : String) : Option Json :=
  match Json.getField (.obj fields) k with
  | none => none
  | some .null => none
  | some j => some j

/-- serde deserialization of `JsonRpcRequest` by the axum `Json` extractor:
`method` must be a string; `jsonrpc` must be absent, `null` or a string;
`params` and `id` are kept verbatim; failure models the extractor rejection
(which also covers a body that is not valid JSON at all). -/
def parseJsonRpcRequest : Json → Option JsonRpcRequest
  | .obj fields =>
      match Json.getField (.obj fields) "method" with
      | some (.str m) =>
          match Json.getField (.obj fields) "jsonrpc" with
          | none => some ⟨none, m, optField fields "params", optField fields "id"⟩
          | some .null => some ⟨none, m, optField fields "params", optField fields "id"⟩
          | some (.str v) => some ⟨some v, m, optField fields "params", optField fields "id"⟩
          | some _ => none
      | _ => none
  | _ => none

/-- The result payloads `handle_mcp` can wrap into a success envelope, one
constructor per dispatch arm of `src/mcp/handlers.rs`. -/
inductive McpResult where
  | initializeResult
  | emptyObj
  | toolsListResult
  | resourcesListResult
  | resourcesReadResult (html : String)
  | toolResult (r : ToolOk)

/-- A JSON-RPC response envelope, as built by `rpc_success` / `rpc_error`
(`src/mcp/helpers.rs`): the echoed id plus either a result or an error with
numeric code and message. -/
inductive RpcEnvelope where
  | success (id : Json) (result : McpResult)
  | error (id : Json) (code : Int) (message : String)

/-- Model of `handle_mcp` (`src/mcp/handlers.rs`): `body = none` models a POST body the
axum extractor rejects before any dispatch (invalid JSON text); otherwise the
body is parsed as a `JsonRpcRequest` and dispatched on `method`.  The returned
`Nat` is the HTTP status code (400 for the rejection, 200 otherwise). -/
def handle_mcp (store : Store) (body : Option Json) (fresh : String) (widgetHtml : String) :
    Store × Nat × RpcEnvelope :=
  match body with
  | none => (store, 400, .error .null (-32700) "Parse error")
  | some b =>
      match parseJsonRpcRequest b with
      | none => (store, 400, .error .null (-32700) "Parse error")
      | some req =>
          let id := req.id.getD .null
          let params := req.params.getD .null
          if req.method = "initialize" then
            (store, 200, .success id .initializeResult)
          else if req.method = "notifications/initialized" then
            (store, 200, .success id .emptyObj)
          else if req.method = "tools/list" then
            (store, 200, .success id .toolsListResult)
          else if req.method = "resources/list" then
            (store, 200, .success id .resourcesListResult)
          else if req.method = "resources/read" then
            (store, 200, .success id (.resourcesReadResult widgetHtml))
          else if req.method = "tools/call" then
            let tool_name := ((params.getField "name").bind Json.asStr).getD ""
            let args := (params.getField "arguments").getD .null
            let r := handle_tool_call store tool_name args fresh
            match r.2 with
            | .ok ok => (r.1, 200, .success id (.toolResult ok))
            | .error msg => (r.1, 200, .error id (-32602) msg)
          else if req.method = "ping" then
            (store, 200, .success id .emptyObj)
          else
            (store, 200, .error id (-32601) "Method not found")

/-- The store invariant of spec §3: at most one entry per cart id, and within
every stored cart the item names are pairwise distinct. -/
def WellFormedStore (s : Store) : Prop :=
  (s.map (·.1)).Nodup ∧ ∀ cart ∈ s.map (·.2), (cartNames cart).Nodup

-- Sanity checks for the dispatcher.
example :
    handle_mcp [] none "f" "h" = ([], 400, .error .null (-32700) "Parse error") := rfl

example :
    handle_mcp [] (some (.obj [("method", .str "nope"), ("id", .num 7)])) "f" "h"
      = ([], 200, .error (.num 7) (-32601) "Method not found") := rfl

example :
    handle_mcp [] (some (.obj [("method", .str "ping")])) "f" "h"
      = ([], 200, .success .null .emptyObj) := rfl


-- =============================================================
-- Store lemmas
-- =============================================================

theorem Store.lookup_insert_self (s : Store) (k : String) (v : List CartItem) :
    (s.insert k v).lookup k = some v := by
  induction s with
  | nil => simp [Store.insert, Store.lookup]
  | cons e rest ih =>
      by_cases h : e.1 = k
      · simp [Store.insert, Store.lookup, h]
      · simp [Store.insert, Store.lookup, h, ih]

theorem Store.lookup_insert_ne (s : Store) (k k' : String) (v : List CartItem)
    (h : k' ≠ k) : (s.insert k v).lookup k' = s.lookup k' := by
  induction s with
  | nil => simp [Store.insert, Store.lookup, Ne.symm h]
  | cons e rest ih =>
      by_cases he : e.1 = k
      · subst he
        simp [Store.insert, Store.lookup, Ne.symm h, h]
      · by_cases he' : e.1 = k'
        · simp [Store.insert, Store.lookup, he, he', h]
        · simp [Store.insert, Store.lookup, he, he', ih]

theorem Store.remove_fst (s : Store) (k : String) :
    (s.remove k).1 = s.lookup k := by
  induction s with
  | nil => simp [Store.remove, Store.lookup]
  | cons e rest ih =>
      by_cases h : e.1 = k
      · simp [Store.remove, Store.lookup, h]
      · simp [Store.remove, Store.lookup, h, ih]

theorem Store.lookup_eq_none_of_not_mem_keys (s : Store) (k : String)
    (h : k ∉ s.map (·.1)) : s.lookup k = none := by
  induction s with
  | nil => simp [Store.lookup]
  | cons e rest ih =>
      simp only [List.map_cons, List.mem_cons, not_or] at h
      simp [Store.lookup, Ne.symm h.1, ih h.2]

theorem Store.remove_snd_of_lookup_none (s : Store) (k : String)
    (h : s.lookup k = none) : (s.remove k).2 = s := by
  induction s with
  | nil => simp [Store.remove]
  | cons e rest ih =>
      by_cases he : e.1 = k
      · simp [Store.lookup, he] at h
      · simp only [Store.lookup, if_neg he] at h
        simp [Store.remove, he, ih h]

theorem Store.lookup_remove_ne (s : Store) (k k' : String) (h : k' ≠ k) :
    ((s.remove k).2).lookup k' = s.lookup k' := by
  induction s with
  | nil => simp [Store.remove]
  | cons e rest ih =>
      by_cases he : e.1 = k
      · subst he
        simp [Store.remove, Store.lookup, Ne.symm h]
      · by_cases he' : e.1 = k'
        · simp [Store.remove, Store.lookup, he, he', h]
        · simp [Store.remove, Store.lookup, he, he', ih]

theorem Store.lookup_remove_self (s : Store) (k : String)
    (hnd : (s.map (·.1)).Nodup) : ((s.remove k).2).lookup k = none := by
  induction s with
  | nil => simp [Store.remove, Store.lookup]
  | cons e rest ih =>
      simp only [List.map_cons, List.nodup_cons] at hnd
      by_cases he : e.1 = k
      · subst he
        simp only [Store.remove, if_pos rfl]
        exact Store.lookup_eq_none_of_not_mem_keys rest e.1 hnd.1
      · simp [Store.remove, Store.lookup, he, ih hnd.2]

theorem Store.insert_keys (s : Store) (k : String) (v : List CartItem) :
    (s.insert k v).map (·.1)
      = if k ∈ s.map (·.1) then s.map (·.1) else s.map (·.1) ++ [k] := by
  induction s with
  | nil => simp [Store.insert]
  | cons e rest ih =>
      by_cases h : e.1 = k
      · simp [Store.insert, h]
      · simp only [Store.insert, if_neg h, List.map_cons, List.mem_cons, ih]
        by_cases hm : k ∈ rest.map (·.1) <;> simp [hm, Ne.symm h]

theorem Store.insert_vals_subset (s : Store) (k : String) (v x : List CartItem)
    (hx : x ∈ (s.insert k v).map (·.2)) : x = v ∨ x ∈ s.map (·.2) := by
  induction s with
  | nil => simpa [Store.insert] using hx
  | cons e rest ih =>
      by_cases h : e.1 = k
      · simp only [Store.insert, if_pos h, List.map_cons, List.mem_cons] at hx
        rcases hx with hv | hr
        · exact Or.inl hv
        · exact Or.inr (List.mem_cons_of_mem _ hr)
      · simp only [Store.insert, if_neg h, List.map_cons, List.mem_cons] at hx
        rcases hx with hv | hr
        · exact Or.inr (by simp [hv])
        · rcases ih hr with h1 | h2
          · exact Or.inl h1
          · exact Or.inr (List.mem_cons_of_mem _ h2)

theorem Store.remove_keys_sublist (s : Store) (k : String) :
    List.Sublist (((s.remove k).2).map (·.1)) (s.map (·.1)) := by
  induction s with
  | nil => simp [Store.remove]
  | cons e rest ih =>
      by_cases h : e.1 = k
      · simp only [Store.remove, if_pos h, List.map_cons]
        exact List.sublist_cons_self _ _
      · simp only [Store.remove, if_neg h, List.map_cons]
        exact ih.cons₂ _

theorem Store.remove_vals_sublist (s : Store) (k : String) :
    List.Sublist (((s.remove k).2).map (·.2)) (s.map (·.2)) := by
  induction s with
  | nil => simp [Store.remove]
  | cons e rest ih =>
      by_cases h : e.1 = k
      · simp only [Store.remove, if_pos h, List.map_cons]
        exact List.sublist_cons_self _ _
      · simp only [Store.remove, if_neg h, List.map_cons]
        exact ih.cons₂ _

theorem Store.insert_keys_nodup (s : Store) (k : String) (v : List CartItem)
    (h : (s.map (·.1)).Nodup) : ((s.insert k v).map (·.1)).Nodup := by
  rw [Store.insert_keys]
  by_cases hm : k ∈ s.map (·.1)
  · simpa [hm] using h
  · simp only [hm, if_neg hm]
    simp [List.nodup_append, h, hm]

-- =============================================================
-- Merge algorithm lemmas
-- =============================================================

theorem qtyOf_nil (n : String) : qtyOf [] n = 0 := rfl

theorem qtyOf_cons (i : CartItem) (l : List CartItem) (n : String) :
    qtyOf (i :: l) n = (if i.name = n then i.quantity else 0) + qtyOf l n := by
  by_cases h : i.name = n <;> simp [qtyOf, List.filter_cons, h]

theorem qtyOf_append (a b : List CartItem) (n : String) :
    qtyOf (a ++ b) n = qtyOf a n + qtyOf b n := by
  induction a with
  | nil => simp [qtyOf]
  | cons i rest ih => simp [qtyOf_cons, ih]; ring

theorem qtyOf_eq_zero_of_not_mem (l : List CartItem) (n : String)
    (h : n ∉ cartNames l) : qtyOf l n = 0 := by
  induction l with
  | nil => rfl
  | cons i rest ih =>
      simp only [cartNames, List.map_cons, List.mem_cons, not_or] at h
      simp [qtyOf_cons, Ne.symm h.1, ih (by simpa [cartNames] using h.2)]

theorem u32Add_modeq (a b : Nat) : u32Add a b ≡ a + b [MOD 2 ^ 32] :=
  Nat.mod_modEq _ _

theorem u32Add_le (a b : Nat) : u32Add a b ≤ a + b :=
  Nat.mod_le _ _

theorem u32Add_lt (a b : Nat) : u32Add a b < 2 ^ 32 :=
  Nat.mod_lt _ (by norm_num)

theorem addIncoming_cons_pos (i : CartItem) (rest : List CartItem) (inc : CartItem)
    (hi : i.name = inc.name) :
    addIncoming (i :: rest) inc
      = { i with quantity := u32Add i.quantity inc.quantity } :: rest := by
  simp [addIncoming, hi]

theorem addIncoming_cons_neg (i : CartItem) (rest : List CartItem) (inc : CartItem)
    (hi : i.name ≠ inc.name) :
    addIncoming (i :: rest) inc = i :: addIncoming rest inc := by
  simp [addIncoming, hi]

theorem addIncoming_qty_modeq (cart : List CartItem) (inc : CartItem) (n : String) :
    qtyOf (addIncoming cart inc) n
      ≡ qtyOf cart n + (if inc.name = n then inc.quantity else 0) [MOD 2 ^ 32] := by
  induction cart with
  | nil =>
      show qtyOf [inc] n ≡ qtyOf [] n + _ [MOD 2 ^ 32]
      rw [qtyOf_cons, qtyOf_nil, Nat.add_zero, Nat.zero_add]
  | cons i rest ih =>
      by_cases hi : i.name = inc.name
      · rw [addIncoming_cons_pos i rest inc hi]
        by_cases hn : i.name = n
        · have hincn : inc.name = n := by rw [← hi]; exact hn
          simp only [qtyOf_cons]
          rw [if_pos hn, if_pos hn, if_pos hincn]
          have h1 : u32Add i.quantity inc.quantity + qtyOf rest n
              ≡ i.quantity + inc.quantity + qtyOf rest n [MOD 2 ^ 32] :=
            Nat.ModEq.add_right _ (u32Add_modeq _ _)
          have h2 : i.quantity + inc.quantity + qtyOf rest n
              = i.quantity + qtyOf rest n + inc.quantity := by ring
          exact h2 ▸ h1
        · have hincn : inc.name ≠ n := by rw [← hi]; exact hn
          simp only [qtyOf_cons]
          rw [if_neg hn, if_neg hn, if_neg hincn, Nat.add_zero]
      · rw [addIncoming_cons_neg i rest inc hi]
        simp only [qtyOf_cons]
        have h1 := Nat.ModEq.add_left (if i.name = n then i.quantity else 0) ih
        have h2 : (if i.name = n then i.quantity else 0)
            + (qtyOf rest n + (if inc.name = n then inc.quantity else 0))
            = (if i.name = n then i.quantity else 0) + qtyOf rest n
              + (if inc.name = n then inc.quantity else 0) := by ring
        exact h2 ▸ h1

theorem addIncoming_qty_le (cart : List CartItem) (inc : CartItem) (n : String) :
    qtyOf (addIncoming cart inc) n
      ≤ qtyOf cart n + (if inc.name = n then inc.quantity else 0) := by
  induction cart with
  | nil =>
      show qtyOf [inc] n ≤ qtyOf [] n + _
      rw [qtyOf_cons, qtyOf_nil, Nat.add_zero, Nat.zero_add]
  | cons i rest ih =>
      by_cases hi : i.name = inc.name
      · rw [addIncoming_cons_pos i rest inc hi]
        by_cases hn : i.name = n
        · have hincn : inc.name = n := by rw [← hi]; exact hn
          simp only [qtyOf_cons]
          rw [if_pos hn, if_pos hn, if_pos hincn]
          have := u32Add_le i.quantity inc.quantity
          omega
        · have hincn : inc.name ≠ n := by rw [← hi]; exact hn
          simp only [qtyOf_cons]
          rw [if_neg hn, if_neg hn, if_neg hincn, Nat.add_zero]
      · rw [addIncoming_cons_neg i rest inc hi]
        simp only [qtyOf_cons]
        omega

theorem update_qty_modeq (new cart : List CartItem) (n : String) :
    qtyOf (update_cart_with_new_items cart new) n
      ≡ qtyOf cart n + qtyOf new n [MOD 2 ^ 32] := by
  induction new generalizing cart with
  | nil =>
      show qtyOf cart n ≡ qtyOf cart n + qtyOf [] n [MOD 2 ^ 32]
      rw [qtyOf_nil, Nat.add_zero]
  | cons inc rest ih =>
      show qtyOf (List.foldl addIncoming (addIncoming cart inc) rest) n
        ≡ qtyOf cart n + qtyOf (inc :: rest) n [MOD 2 ^ 32]
      have h1 : qtyOf (List.foldl addIncoming (addIncoming cart inc) rest) n
          ≡ qtyOf (addIncoming cart inc) n + qtyOf rest n [MOD 2 ^ 32] := ih _
      have h2 : qtyOf (addIncoming cart inc) n + qtyOf rest n
          ≡ (qtyOf cart n + (if inc.name = n then inc.quantity else 0)) + qtyOf rest n
            [MOD 2 ^ 32] :=
        Nat.ModEq.add_right _ (addIncoming_qty_modeq cart inc n)
      have h3 : (qtyOf cart n + (if inc.name = n then inc.quantity else 0)) + qtyOf rest n
          = qtyOf cart n + qtyOf (inc :: rest) n := by rw [qtyOf_cons]; ring
      exact h3 ▸ (h1.trans h2)

theorem update_qty_le (new cart : List CartItem) (n : String) :
    qtyOf (update_cart_with_new_items cart new) n ≤ qtyOf cart n + qtyOf new n := by
  induction new generalizing cart with
  | nil =>
      show qtyOf cart n ≤ qtyOf cart n + qtyOf [] n
      rw [qtyOf_nil, Nat.add_zero]
  | cons inc rest ih =>
      show qtyOf (List.foldl addIncoming (addIncoming cart inc) rest) n
        ≤ qtyOf cart n + qtyOf (inc :: rest) n
      have h1 : qtyOf (List.foldl addIncoming (addIncoming cart inc) rest) n
          ≤ qtyOf (addIncoming cart inc) n + qtyOf rest n := ih _
      have h2 := addIncoming_qty_le cart inc n
      rw [qtyOf_cons]
      omega

theorem addIncoming_names (cart : List CartItem) (inc : CartItem) :
    cartNames (addIncoming cart inc)
      = if inc.name ∈ cartNames cart then cartNames cart
        else cartNames cart ++ [inc.name] := by
  induction cart with
  | nil => simp [addIncoming, cartNames]
  | cons i rest ih =>
      by_cases hi : i.name = inc.name
      · rw [addIncoming_cons_pos i rest inc hi]
        simp [cartNames, hi]
      · rw [addIncoming_cons_neg i rest inc hi]
        simp only [cartNames, List.map_cons] at *
        rw [ih]
        by_cases hm : inc.name ∈ rest.map (·.name)
        · simp [hm]
        · simp [hm, Ne.symm hi]

theorem update_names (new cart : List CartItem) :
    cartNames (update_cart_with_new_items cart new)
      = firstSeenFrom (cartNames cart) (new.map (·.name)) := by
  induction new generalizing cart with
  | nil => rfl
  | cons inc rest ih =>
      show cartNames (List.foldl addIncoming (addIncoming cart inc) rest)
        = firstSeenFrom (cartNames cart) (inc.name :: rest.map (·.name))
      rw [show (List.foldl addIncoming (addIncoming cart inc) rest)
          = update_cart_with_new_items (addIncoming cart inc) rest from rfl, ih]
      rw [firstSeenFrom, addIncoming_names]

theorem firstSeenFrom_nodup (l : List String) (acc : List String) (h : acc.Nodup) :
    (firstSeenFrom acc l).Nodup := by
  induction l generalizing acc with
  | nil => exact h
  | cons x xs ih =>
      rw [firstSeenFrom]
      by_cases hm : x ∈ acc
      · simpa [hm] using ih acc h
      · refine ih _ ?_
        rw [if_neg hm]
        simp [List.nodup_append, h, hm]

theorem update_names_nodup (new cart : List CartItem)
    (h : (cartNames cart).Nodup) :
    (cartNames (update_cart_with_new_items cart new)).Nodup := by
  rw [update_names]
  exact firstSeenFrom_nodup _ _ h

theorem addIncoming_quantity_lt (cart : List CartItem) (inc : CartItem)
    (hc : ∀ i ∈ cart, i.quantity < 2 ^ 32) (hi : inc.quantity < 2 ^ 32) :
    ∀ i ∈ addIncoming cart inc, i.quantity < 2 ^ 32 := by
  induction cart with
  | nil =>
      intro i hmem
      simp only [addIncoming, List.mem_singleton] at hmem
      simpa [hmem] using hi
  | cons j rest ih =>
      intro i hmem
      by_cases hj : j.name = inc.name
      · rw [addIncoming_cons_pos j rest inc hj] at hmem
        rcases List.mem_cons.mp hmem with hh | ht
        · simpa [hh] using u32Add_lt j.quantity inc.quantity
        · exact hc i (List.mem_cons_of_mem _ ht)
      · rw [addIncoming_cons_neg j rest inc hj] at hmem
        rcases List.mem_cons.mp hmem with hh | ht
        · exact hh ▸ hc j (List.mem_cons_self _ _)
        · exact ih (fun a ha => hc a (List.mem_cons_of_mem _ ha)) i ht

theorem update_quantity_lt (new cart : List CartItem)
    (hc : ∀ i ∈ cart, i.quantity < 2 ^ 32) (hn : ∀ i ∈ new, i.quantity < 2 ^ 32) :
    ∀ i ∈ update_cart_with_new_items cart new, i.quantity < 2 ^ 32 := by
  induction new generalizing cart with
  | nil => exact hc
  | cons inc rest ih =>
      show ∀ i ∈ List.foldl addIncoming (addIncoming cart inc) rest, i.quantity < 2 ^ 32
      exact ih (addIncoming cart inc)
        (addIncoming_quantity_lt cart inc hc (hn inc (List.mem_cons_self _ _)))
        (fun a ha => hn a (List.mem_cons_of_mem _ ha))

theorem qtyOf_lt_of_nodup (cart : List CartItem) (n : String)
    (hq : ∀ i ∈ cart, i.quantity < 2 ^ 32) (hnd : (cartNames cart).Nodup) :
    qtyOf cart n < 2 ^ 32 := by
  induction cart with
  | nil => simp [qtyOf_nil]
  | cons i rest ih =>
      simp only [cartNames, List.map_cons, List.nodup_cons] at hnd
      rw [qtyOf_cons]
      by_cases hn : i.name = n
      · have hz : qtyOf rest n = 0 :=
          qtyOf_eq_zero_of_not_mem rest n (by rw [← hn]; exact hnd.1)
        rw [if_pos hn, hz, Nat.add_zero]
        exact hq i (List.mem_cons_self _ _)
      · rw [if_neg hn, Nat.zero_add]
        exact ih (fun a ha => hq a (List.mem_cons_of_mem _ ha))
          (by simpa [cartNames] using hnd.2)

theorem addIncoming_not_mem (cart : List CartItem) (inc : CartItem)
    (h : inc.name ∉ cartNames cart) : addIncoming cart inc = cart ++ [inc] := by
  induction cart with
  | nil => rfl
  | cons i rest ih =>
      simp only [cartNames, List.map_cons, List.mem_cons, not_or] at h
      rw [addIncoming_cons_neg i rest inc (Ne.symm h.1)]
      rw [ih (by simpa [cartNames] using h.2)]
      rfl

theorem addIncoming_found (pre : List CartItem) (i : CartItem) (post : List CartItem)
    (inc : CartItem) (hpre : inc.name ∉ cartNames pre) (hi : i.name = inc.name) :
    addIncoming (pre ++ i :: post) inc
      = pre ++ { i with quantity := u32Add i.quantity inc.quantity } :: post := by
  induction pre with
  | nil => simpa using addIncoming_cons_pos i post inc hi
  | cons j rest ih =>
      simp only [cartNames, List.map_cons, List.mem_cons, not_or] at hpre
      rw [List.cons_append, addIncoming_cons_neg j _ inc (Ne.symm hpre.1)]
      rw [ih (by simpa [cartNames] using hpre.2)]
      rfl

theorem flatten_qtyOf (batches : List (List CartItem)) (n : String) :
    qtyOf batches.flatten n = (batches.map (fun b => qtyOf b n)).sum := by
  induction batches with
  | nil => simp [qtyOf_nil]
  | cons b rest ih => simp [List.flatten, qtyOf_append, ih]

theorem firstSeenFrom_append (xs ys acc : List String) :
    firstSeenFrom acc (xs ++ ys) = firstSeenFrom (firstSeenFrom acc xs) ys := by
  induction xs generalizing acc with
  | nil => rfl
  | cons x xrest ihx =>
      rw [List.cons_append, firstSeenFrom, firstSeenFrom]
      exact ihx _

theorem mergeAll_qty_modeq (batches : List (List CartItem)) (n : String) :
    qtyOf (batches.foldl update_cart_with_new_items []) n
      ≡ qtyOf batches.flatten n [MOD 2 ^ 32] := by
  suffices h : ∀ (batches : List (List CartItem)) (cart : List CartItem),
      qtyOf (batches.foldl update_cart_with_new_items cart) n
        ≡ qtyOf cart n + qtyOf batches.flatten n [MOD 2 ^ 32] by
    simpa [qtyOf_nil] using h batches []
  intro batches
  induction batches with
  | nil =>
      intro cart
      show qtyOf cart n ≡ qtyOf cart n + 0 [MOD 2 ^ 32]
      rw [Nat.add_zero]
  | cons b rest ih =>
      intro cart
      show qtyOf (rest.foldl update_cart_with_new_items (update_cart_with_new_items cart b)) n
        ≡ qtyOf cart n + qtyOf ((b :: rest).flatten) n [MOD 2 ^ 32]
      have h1 := ih (update_cart_with_new_items cart b)
      have h2 : qtyOf (update_cart_with_new_items cart b) n + qtyOf rest.flatten n
          ≡ (qtyOf cart n + qtyOf b n) + qtyOf rest.flatten n [MOD 2 ^ 32] :=
        Nat.ModEq.add_right _ (update_qty_modeq b cart n)
      have h3 : (qtyOf cart n + qtyOf b n) + qtyOf rest.flatten n
          = qtyOf cart n + qtyOf ((b :: rest).flatten) n := by
        simp [List.flatten, qtyOf_append]; ring
      exact h3 ▸ (h1.trans h2)

theorem mergeAll_qty_le (batches : List (List CartItem)) (n : String) :
    qtyOf (batches.foldl update_cart_with_new_items []) n ≤ qtyOf batches.flatten n := by
  suffices h : ∀ (batches : List (List CartItem)) (cart : List CartItem),
      qtyOf (batches.foldl update_cart_with_new_items cart) n
        ≤ qtyOf cart n + qtyOf batches.flatten n by
    simpa [qtyOf_nil] using h batches []
  intro batches
  induction batches with
  | nil =>
      intro cart
      show qtyOf cart n ≤ qtyOf cart n + 0
      rw [Nat.add_zero]
  | cons b rest ih =>
      intro cart
      show qtyOf (rest.foldl update_cart_with_new_items (update_cart_with_new_items cart b)) n
        ≤ qtyOf cart n + qtyOf ((b :: rest).flatten) n
      have h1 := ih (update_cart_with_new_items cart b)
      have h2 := update_qty_le b cart n
      have h3 : qtyOf ((b :: rest).flatten) n = qtyOf b n + qtyOf rest.flatten n := by
        simp [List.flatten, qtyOf_append]
      omega

theorem mergeAll_names (batches : List (List CartItem)) :
    cartNames (batches.foldl update_cart_with_new_items [])
      = firstSeen (batches.flatten.map (·.name)) := by
  suffices h : ∀ (batches : List (List CartItem)) (cart : List CartItem),
      cartNames (batches.foldl update_cart_with_new_items cart)
        = firstSeenFrom (cartNames cart) (batches.flatten.map (·.name)) by
    simpa [firstSeen, cartNames] using h batches []
  intro batches
  induction batches with
  | nil => intro cart; rfl
  | cons b rest ih =>
      intro cart
      show cartNames (rest.foldl update_cart_with_new_items (update_cart_with_new_items cart b))
        = firstSeenFrom (cartNames cart) (((b :: rest).flatten).map (·.name))
      rw [ih (update_cart_with_new_items cart b), update_names]
      have hsplit : ((b :: rest).flatten).map (·.name)
          = b.map (·.name) ++ (rest.flatten).map (·.name) := by simp [List.flatten]
      rw [hsplit, firstSeenFrom_append]

theorem mergeAll_names_nodup (batches : List (List CartItem)) :
    (cartNames (batches.foldl update_cart_with_new_items [])).Nodup := by
  rw [mergeAll_names]
  exact firstSeenFrom_nodup _ _ List.nodup_nil

theorem mergeAll_quantity_lt (batches : List (List CartItem))
    (h : ∀ i ∈ batches.flatten, i.quantity < 2 ^ 32) :
    ∀ i ∈ batches.foldl update_cart_with_new_items [], i.quantity < 2 ^ 32 := by
  suffices hs : ∀ (batches : List (List CartItem)) (cart : List CartItem),
      (∀ i ∈ cart, i.quantity < 2 ^ 32) → (∀ i ∈ batches.flatten, i.quantity < 2 ^ 32) →
      ∀ i ∈ batches.foldl update_cart_with_new_items cart, i.quantity < 2 ^ 32 by
    exact hs batches [] (by simp) h
  intro batches
  induction batches with
  | nil => intro cart hc _; exact hc
  | cons b rest ih =>
      intro cart hc hj
      have hb : ∀ i ∈ b, i.quantity < 2 ^ 32 := by
        intro i hi; exact hj i (by simp [List.flatten, hi])
      have hr : ∀ i ∈ rest.flatten, i.quantity < 2 ^ 32 := by
        intro i hi; exact hj i (by simp [List.flatten, hi])
      exact ih (update_cart_with_new_items cart b) (update_quantity_lt b cart hc hb) hr

-- =============================================================
-- Claim theorems
-- =============================================================

/-- C1, counterexample to the claim as stated: quantities are `u32`, so two
merges of quantity `2 ^ 31` under one name leave a stored quantity of 0, not
the mathematical sum `2 ^ 32` of the incoming quantities. -/
theorem C1_counterexample :
    qtyOf ([[⟨"A", 2 ^ 31, []⟩], [⟨"A", 2 ^ 31, []⟩]].foldl
        update_cart_with_new_items []) "A" = 0
    ∧ qtyOf ([[⟨"A", 2 ^ 31, []⟩], [⟨"A", 2 ^ 31, []⟩]].flatten) "A" = 2 ^ 32
    ∧ (0 : Nat) ≠ 2 ^ 32 := by
  refine ⟨by decide, by decide, by decide⟩

/-- C1 (amended): `update_cart_with_new_items` is a left fold of the one-item
merge over the incoming list; an incoming item whose name matches an existing
entry bumps that entry's quantity in place (`u32` addition), keeping its
position and `extra` and discarding the incoming record; a non-matching
incoming item is appended whole.  Over any sequence of merges into the same
cart (starting empty), the final quantity of a name equals the sum of all
incoming quantities for that name modulo `2 ^ 32` — exactly that sum whenever
it is below `2 ^ 32` — and the cart names are the distinct incoming names in
first-seen order, each exactly once. -/
theorem C1_merge_fold :
    (∀ cart new, update_cart_with_new_items cart new = new.foldl addIncoming cart)
    ∧ (∀ pre i post inc, inc.name ∉ cartNames pre → i.name = inc.name →
        addIncoming (pre ++ i :: post) inc
          = pre ++ { i with quantity := u32Add i.quantity inc.quantity } :: post)
    ∧ (∀ cart inc, inc.name ∉ cartNames cart → addIncoming cart inc = cart ++ [inc])
    ∧ (∀ (batches : List (List CartItem)) (n : String),
        qtyOf (batches.foldl update_cart_with_new_items []) n % 2 ^ 32
          = qtyOf batches.flatten n % 2 ^ 32)
    ∧ (∀ (batches : List (List CartItem)) (n : String),
        qtyOf batches.flatten n < 2 ^ 32 →
        qtyOf (batches.foldl update_cart_with_new_items []) n = qtyOf batches.flatten n)
    ∧ (∀ batches : List (List CartItem),
        cartNames (batches.foldl update_cart_with_new_items [])
          = firstSeen (batches.flatten.map (·.name))
        ∧ (cartNames (batches.foldl update_cart_with_new_items [])).Nodup) := by
  refine ⟨fun _ _ => rfl, addIncoming_found, addIncoming_not_mem, ?_, ?_, ?_⟩
  · intro batches n
    exact mergeAll_qty_modeq batches n
  · intro batches n hlt
    have hle := mergeAll_qty_le batches n
    have hmod : qtyOf (batches.foldl update_cart_with_new_items []) n % 2 ^ 32
        = qtyOf batches.flatten n % 2 ^ 32 := mergeAll_qty_modeq batches n
    rwa [Nat.mod_eq_of_lt (lt_of_le_of_lt hle hlt), Nat.mod_eq_of_lt hlt] at hmod
  · intro batches
    exact ⟨mergeAll_names batches, mergeAll_names_nodup batches⟩

/-- C1 witness: merging quantity 3 and then quantity 2 of "Apple" into an
empty cart (sum below `2 ^ 32`) yields the exact stored quantity 5. -/
theorem C1_merge_fold_witness :
    qtyOf ([[⟨"Apple", 3, []⟩], [⟨"Apple", 2, []⟩]].foldl
        update_cart_with_new_items []) "Apple" = 5 := by
  have h := C1_merge_fold.2.2.2.2.1 [[⟨"Apple", 3, []⟩], [⟨"Apple", 2, []⟩]] "Apple"
    (by decide)
  exact h.trans (by decide)

/-- C10: the quantity aggregation `existing.quantity += incoming.quantity` is
fixed-width `u32` addition, i.e. addition modulo `2 ^ 32`; consequently, for
`u32`-ranged inputs the stored quantity after any merge sequence from the
empty cart is the incoming sum modulo `2 ^ 32`, which equals the mathematical
sum exactly when that sum stays below `2 ^ 32`. -/
theorem C10_u32_wrap :
    (∀ pre i post inc, inc.name ∉ cartNames pre → i.name = inc.name →
        addIncoming (pre ++ i :: post) inc
          = pre ++ { i with quantity := (i.quantity + inc.quantity) % 2 ^ 32 } :: post)
    ∧ (∀ (batches : List (List CartItem)) (n : String),
        (∀ j ∈ batches.flatten, j.quantity < 2 ^ 32) →
        qtyOf (batches.foldl update_cart_with_new_items []) n
          = qtyOf batches.flatten n % 2 ^ 32)
    ∧ (∀ (batches : List (List CartItem)) (n : String),
        (∀ j ∈ batches.flatten, j.quantity < 2 ^ 32) →
        qtyOf batches.flatten n < 2 ^ 32 →
        qtyOf (batches.foldl update_cart_with_new_items []) n = qtyOf batches.flatten n) := by
  refine ⟨addIncoming_found, ?_, ?_⟩
  · intro batches n hq
    have hnd := mergeAll_names_nodup batches
    have hlt := mergeAll_quantity_lt batches hq
    have h1 : qtyOf (batches.foldl update_cart_with_new_items []) n < 2 ^ 32 :=
      qtyOf_lt_of_nodup _ n hlt hnd
    have h2 : qtyOf (batches.foldl update_cart_with_new_items []) n % 2 ^ 32
        = qtyOf batches.flatten n % 2 ^ 32 := mergeAll_qty_modeq batches n
    rwa [Nat.mod_eq_of_lt h1] at h2
  · intro batches n hq hlt
    have hle := mergeAll_qty_le batches n
    have hmod : qtyOf (batches.foldl update_cart_with_new_items []) n % 2 ^ 32
        = qtyOf batches.flatten n % 2 ^ 32 := mergeAll_qty_modeq batches n
    rwa [Nat.mod_eq_of_lt (lt_of_le_of_lt hle hlt), Nat.mod_eq_of_lt hlt] at hmod

/-- C10 witness: two in-range quantities `2 ^ 31` for one name wrap to a
stored quantity `2 ^ 32 % 2 ^ 32 = 0`. -/
theorem C10_u32_wrap_witness :
    qtyOf ([[⟨"B", 2 ^ 31, []⟩], [⟨"B", 2 ^ 31, []⟩]].foldl
        update_cart_with_new_items []) "B"
      = qtyOf ([[⟨"B", 2 ^ 31, []⟩], [⟨"B", 2 ^ 31, []⟩]].flatten) "B" % 2 ^ 32 :=
  C10_u32_wrap.2.1 [[⟨"B", 2 ^ 31, []⟩], [⟨"B", 2 ^ 31, []⟩]] "B" (by decide)

/-- C3: `sync_cart` is an unconditional overwrite: after a sync the stored
list for the resolved cart id is exactly the payload's item list (no merge),
the response is `("updated", cartId)`, and a second sync on the same id wins
over the first. -/
theorem C3_sync_overwrite :
    (∀ (store : Store) (p : AddToCartInput) (sid : String),
        ((sync_cart store p sid).1).lookup (get_or_default_cart_id p.cart_id sid)
          = some p.items
        ∧ (sync_cart store p sid).2
          = ("updated", get_or_default_cart_id p.cart_id sid))
    ∧ (∀ (store : Store) (items1 items2 : List CartItem) (c sid1 sid2 : String),
        ((sync_cart (sync_cart store ⟨items1, some c⟩ sid1).1
            ⟨items2, some c⟩ sid2).1).lookup c = some items2) := by
  constructor
  · intro store p sid
    exact ⟨Store.lookup_insert_self store _ p.items, rfl⟩
  · intro store items1 items2 c sid1 sid2
    exact Store.lookup_insert_self _ c items2

/-- C2, counterexample to the claim as stated: `format_item_summary` renders
`"<qty>x <name>"` with a space after the `x` (`format!("{}x {}", ...)`), so
checking out a cart holding 2 Apples reports `"Checked out now: 2x Apple"`,
not `"Checked out now: 2xApple"` as the claim's `<qty>x<name>` template says. -/
theorem C2_counterexample :
    (handle_checkout_tool [("c", [⟨"Apple", 2, []⟩])]
        (.obj [("cartId", .str "c")]) "f").2
      = .ok ⟨"Checked out now: " ++ "2x Apple", "c", [], true⟩
    ∧ "Checked out now: " ++ "2x Apple" ≠ "Checked out now: " ++ "2xApple" :=
  ⟨rfl, by decide⟩

/-- C2 (amended): for every checkout tool call with well-formed arguments the
resolved cart id's entry is removed from the store entirely; if the cart
existed the result text is `"Checked out now: "` followed by the removed items
rendered as `"<qty>x <name>"` pairs (a space after the `x`) joined by `", "`;
if it did not exist the store is untouched and the text is exactly
`"Cart is empty."`; in both cases the structured payload is
`{cartId, items: [], checkout: true}`.  With no `cartId` supplied the id is a
fresh random one, so (when that id is not already a key) a no-id checkout
removes nothing and reports `"Cart is empty."`. -/
theorem C2_checkout (store : Store) (args : Json) (fresh : String) (cid : Option String)
    (hp : parseCheckoutInput args = .ok cid) :
    (∀ items, store.lookup (get_or_create_cart_id cid fresh) = some items →
        (handle_checkout_tool store args fresh).2
          = .ok ⟨"Checked out now: " ++ String.intercalate ", "
                (items.map (fun i => toString i.quantity ++ "x " ++ i.name)),
              get_or_create_cart_id cid fresh, [], true⟩)
    ∧ (store.lookup (get_or_create_cart_id cid fresh) = none →
        (handle_checkout_tool store args fresh).1 = store
        ∧ (handle_checkout_tool store args fresh).2
          = .ok ⟨"Cart is empty.", get_or_create_cart_id cid fresh, [], true⟩)
    ∧ ((store.map (·.1)).Nodup →
        ((handle_checkout_tool store args fresh).1).lookup
          (get_or_create_cart_id cid fresh) = none)
    ∧ (cid = none → fresh ∉ store.map (·.1) →
        (handle_checkout_tool store args fresh).1 = store
        ∧ (handle_checkout_tool store args fresh).2
          = .ok ⟨"Cart is empty.", fresh, [], true⟩) := by
  have hbody : handle_checkout_tool store args fresh
      = match store.remove (get_or_create_cart_id cid fresh) with
        | (some items, rest) =>
            (rest, .ok ⟨"Checked out now: " ++ format_item_summary items,
              get_or_create_cart_id cid fresh, [], true⟩)
        | (none, rest) =>
            (rest, .ok ⟨"Cart is empty.", get_or_create_cart_id cid fresh, [], true⟩) := by
    simp [handle_checkout_tool, hp]
  refine ⟨?_, ?_, ?_, ?_⟩
  · intro items hl
    have h1 : (store.remove (get_or_create_cart_id cid fresh)).1 = some items := by
      rw [Store.remove_fst]; exact hl
    rcases hrem : store.remove (get_or_create_cart_id cid fresh) with ⟨r1, r2⟩
    rw [hrem] at h1 hbody
    subst h1
    rw [hbody]
    rfl
  · intro hl
    have h1 : (store.remove (get_or_create_cart_id cid fresh)).1 = none := by
      rw [Store.remove_fst]; exact hl
    have h2 : (store.remove (get_or_create_cart_id cid fresh)).2 = store :=
      Store.remove_snd_of_lookup_none store _ hl
    rcases hrem : store.remove (get_or_create_cart_id cid fresh) with ⟨r1, r2⟩
    rw [hrem] at h1 h2 hbody
    subst h1
    subst h2
    rw [hbody]
    exact ⟨rfl, rfl⟩
  · intro hnd
    have hrm := Store.lookup_remove_self store (get_or_create_cart_id cid fresh) hnd
    rcases hrem : store.remove (get_or_create_cart_id cid fresh) with ⟨r1, r2⟩
    rw [hrem] at hbody hrm
    rw [hbody]
    cases r1 <;> exact hrm
  · intro hcid hfresh
    subst hcid
    have hc : get_or_create_cart_id none fresh = fresh := rfl
    rw [hc] at hbody
    have hl : store.lookup fresh = none :=
      Store.lookup_eq_none_of_not_mem_keys store fresh hfresh
    have h1 : (store.remove fresh).1 = none := by rw [Store.remove_fst]; exact hl
    have h2 : (store.remove fresh).2 = store :=
      Store.remove_snd_of_lookup_none store _ hl
    rcases hrem : store.remove fresh with ⟨r1, r2⟩
    rw [hrem] at h1 h2 hbody
    subst h1
    subst h2
    rw [hbody]
    exact ⟨rfl, rfl⟩

/-- C2 witness: checking out the existing cart `"k"` holding one Pear reports
`"Checked out now: 1x Pear"` with the `{cartId, items: [], checkout: true}`
payload. -/
theorem C2_checkout_witness :
    (handle_checkout_tool [("k", [⟨"Pear", 1, []⟩])]
        (.obj [("cartId", .str "k")]) "f").2
      = .ok ⟨"Checked out now: " ++ String.intercalate ", "
            (([⟨"Pear", 1, []⟩] : List CartItem).map
              (fun i => toString i.quantity ++ "x " ++ i.name)),
          "k", [], true⟩ :=
  (C2_checkout [("k", [⟨"Pear", 1, []⟩])] (.obj [("cartId", .str "k")]) "f"
      (some "k") rfl).1 [⟨"Pear", 1, []⟩] rfl

theorem Store.lookup_mem_vals (s : Store) (k : String) (v : List CartItem)
    (h : s.lookup k = some v) : v ∈ s.map (·.2) := by
  induction s with
  | nil => simp [Store.lookup] at h
  | cons e rest ih =>
      by_cases he : e.1 = k
      · simp only [Store.lookup, if_pos he, Option.some.injEq] at h
        simp [← h]
      · simp only [Store.lookup, if_neg he] at h
        exact List.mem_cons_of_mem _ (ih h)

theorem add_tool_of_parse_error (store : Store) (args : Json) (fresh e : String)
    (hp : parseAddToCartInput args = .error e) :
    handle_add_to_cart_tool store args fresh
      = (store, .error ("Invalid arguments: " ++ e)) := by
  simp [handle_add_to_cart_tool, hp]

theorem add_tool_of_parse_ok (store : Store) (args : Json) (fresh : String)
    (input : AddToCartInput) (hp : parseAddToCartInput args = .ok input) :
    handle_add_to_cart_tool store args fresh
      = (store.insert (get_or_create_cart_id input.cart_id fresh)
          (update_cart_with_new_items
            ((store.lookup (get_or_create_cart_id input.cart_id fresh)).getD [])
            input.items),
         .ok ⟨"Cart " ++ get_or_create_cart_id input.cart_id fresh ++ " now has "
              ++ toString (update_cart_with_new_items
                  ((store.lookup (get_or_create_cart_id input.cart_id fresh)).getD [])
                  input.items).length ++ " item(s).",
           get_or_create_cart_id input.cart_id fresh,
           update_cart_with_new_items
             ((store.lookup (get_or_create_cart_id input.cart_id fresh)).getD [])
             input.items⟩) := by
  simp [handle_add_to_cart_tool, hp]

theorem merged_names_nodup_of_wf (store : Store) (c : String)
    (new : List CartItem) (hwf : WellFormedStore store) :
    (cartNames (update_cart_with_new_items ((store.lookup c).getD []) new)).Nodup := by
  rcases hl : store.lookup c with _ | cart0
  · simpa using update_names_nodup new [] List.nodup_nil
  · have hmem := Store.lookup_mem_vals store c cart0 hl
    simpa using update_names_nodup new cart0 (hwf.2 cart0 hmem)

/-- C4, counterexample to the claim as stated: `sync_cart` stores its payload
verbatim, so a sync whose payload repeats a name leaves a stored cart with
duplicate names, violating the name-uniqueness half of the invariant. -/
theorem C4_counterexample :
    ¬ WellFormedStore ((sync_cart [] ⟨[⟨"A", 1, []⟩, ⟨"A", 1, []⟩], some "c"⟩ "s").1) := by
  intro h
  have hmem : [(⟨"A", 1, []⟩ : CartItem), ⟨"A", 1, []⟩]
      ∈ ((sync_cart [] ⟨[⟨"A", 1, []⟩, ⟨"A", 1, []⟩], some "c"⟩ "s").1).map (·.2) :=
    List.mem_singleton.mpr rfl
  exact absurd (h.2 _ hmem) (by decide)

/-- C4 (amended): starting from a well-formed store, every `add_to_cart` tool
call and every `checkout` tool call preserve the invariant (at most one entry
per cart id, pairwise-distinct names within each cart) unconditionally — even
when the incoming items repeat a name — and `sync_cart` preserves it provided
its payload's item names are pairwise distinct (the code never deduplicates a
sync payload). -/
theorem C4_invariant (s : Store) (hwf : WellFormedStore s) :
    (∀ (p : AddToCartInput) (sid : String), (cartNames p.items).Nodup →
        WellFormedStore (sync_cart s p sid).1)
    ∧ (∀ (args : Json) (fresh : String),
        WellFormedStore (handle_add_to_cart_tool s args fresh).1)
    ∧ (∀ (args : Json) (fresh : String),
        WellFormedStore (handle_checkout_tool s args fresh).1) := by
  refine ⟨?_, ?_, ?_⟩
  · intro p sid hnd
    constructor
    · exact Store.insert_keys_nodup s _ p.items hwf.1
    · intro cart hmem
      rcases Store.insert_vals_subset s _ p.items cart hmem with hv | hv
      · exact hv ▸ hnd
      · exact hwf.2 cart hv
  · intro args fresh
    rcases hp : parseAddToCartInput args with e | input
    · rw [add_tool_of_parse_error s args fresh e hp]
      exact hwf
    · rw [add_tool_of_parse_ok s args fresh input hp]
      constructor
      · exact Store.insert_keys_nodup s _ _ hwf.1
      · intro cart hmem
        rcases Store.insert_vals_subset s _ _ cart hmem with hv | hv
        · exact hv ▸ merged_names_nodup_of_wf s _ input.items hwf
        · exact hwf.2 cart hv
  · intro args fresh
    rcases hp : parseCheckoutInput args with e | cid
    · simp only [handle_checkout_tool, hp]
      exact hwf
    · have hbody : (handle_checkout_tool s args fresh).1
          = (s.remove (get_or_create_cart_id cid fresh)).2 := by
        simp only [handle_checkout_tool, hp]
        rcases s.remove (get_or_create_cart_id cid fresh) with ⟨r1, r2⟩
        cases r1 <;> rfl
      rw [hbody]
      constructor
      · exact (Store.remove_keys_sublist s _).nodup hwf.1
      · intro cart hmem
        exact hwf.2 cart ((Store.remove_vals_sublist s _).subset hmem)

/-- C4 witness: from the empty (well-formed) store, an `add_to_cart` call
whose incoming items repeat the name "A" still yields a well-formed store. -/
theorem C4_invariant_witness :
    WellFormedStore ((handle_add_to_cart_tool []
        (.obj [("items", .arr [.obj [("name", .str "A")], .obj [("name", .str "A")]])])
        "f").1) :=
  (C4_invariant [] (by constructor <;> simp)).2.1
    (.obj [("items", .arr [.obj [("name", .str "A")], .obj [("name", .str "A")]])]) "f"

/-- C5: a successful `add_to_cart` tool call resolves the cart id (input id,
else the freshly generated one), parses items with quantity defaulting to 1
when absent, merges them into the stored cart, stores the post-merge list
under the resolved id, and answers `"Cart <id> now has <N> item(s)."` where
`N` is the length of the post-merge list — the distinct-item count, since the
post-merge names are pairwise distinct for a well-formed store — together
with the `{cartId, items}` payload. -/
theorem C5_add_to_cart :
    (∀ (fields : List (String × Json)) (s : String),
        Json.getField (.obj fields) "name" = some (.str s) →
        Json.getField (.obj fields) "quantity" = none →
        parseCartItem (.obj fields)
          = .ok ⟨s, 1, fields.filter (fun e => !(e.1 == "name") && !(e.1 == "quantity"))⟩)
    ∧ (∀ (store : Store) (args : Json) (fresh : String) (input : AddToCartInput),
        parseAddToCartInput args = .ok input →
        handle_add_to_cart_tool store args fresh
          = (store.insert (get_or_create_cart_id input.cart_id fresh)
              (update_cart_with_new_items
                ((store.lookup (get_or_create_cart_id input.cart_id fresh)).getD [])
                input.items),
             .ok ⟨"Cart " ++ get_or_create_cart_id input.cart_id fresh ++ " now has "
                  ++ toString (update_cart_with_new_items
                      ((store.lookup (get_or_create_cart_id input.cart_id fresh)).getD [])
                      input.items).length ++ " item(s).",
               get_or_create_cart_id input.cart_id fresh,
               update_cart_with_new_items
                 ((store.lookup (get_or_create_cart_id input.cart_id fresh)).getD [])
                 input.items⟩)
        ∧ ((handle_add_to_cart_tool store args fresh).1).lookup
              (get_or_create_cart_id input.cart_id fresh)
            = some (update_cart_with_new_items
                ((store.lookup (get_or_create_cart_id input.cart_id fresh)).getD [])
                input.items))
    ∧ (∀ (store : Store) (args : Json) (fresh : String) (input : AddToCartInput),
        parseAddToCartInput args = .ok input → WellFormedStore store →
        (cartNames (update_cart_with_new_items
            ((store.lookup (get_or_create_cart_id input.cart_id fresh)).getD [])
            input.items)).Nodup)
    ∧ (∀ (c fresh : String), get_or_create_cart_id (some c) fresh = c)
    ∧ (∀ fresh : String, get_or_create_cart_id none fresh = fresh) := by
  refine ⟨?_, ?_, ?_, fun _ _ => rfl, fun _ => rfl⟩
  · intro fields s h1 h2
    simp [parseCartItem, h1, h2]
  · intro store args fresh input hp
    refine ⟨add_tool_of_parse_ok store args fresh input hp, ?_⟩
    rw [add_tool_of_parse_ok store args fresh input hp]
    exact Store.lookup_insert_self store _ _
  · intro store args fresh input _ hwf
    exact merged_names_nodup_of_wf store _ input.items hwf

/-- C5 witness: adding `{name: "Apple", quantity: 2}` with no cart id to the
empty store puts `[⟨"Apple", 2⟩]` under the fresh id `"f"` and reports
`"Cart f now has 1 item(s)."`. -/
theorem C5_add_to_cart_witness :
    handle_add_to_cart_tool []
        (.obj [("items", .arr [.obj [("name", .str "Apple"), ("quantity", .num 2)]])]) "f"
      = ([("f", [⟨"Apple", 2, []⟩])],
         .ok ⟨"Cart f now has 1 item(s).", "f", [⟨"Apple", 2, []⟩]⟩) :=
  (C5_add_to_cart.2.1 []
      (.obj [("items", .arr [.obj [("name", .str "Apple"), ("quantity", .num 2)]])]) "f"
      ⟨[⟨"Apple", 2, []⟩], none⟩ rfl).1

/-- C6, counterexample to the claim as stated: an item whose `name` is the
empty string is accepted by deserialization (serde never checks
non-emptiness), so the call succeeds and modifies the store instead of
returning the claimed -32602 invalid-arguments error. -/
theorem C6_counterexample :
    (handle_add_to_cart_tool [] (.obj [("items", .arr [.obj [("name", .str "")]])]) "f").2
      = .ok ⟨"Cart f now has 1 item(s).", "f", [⟨"", 1, []⟩]⟩
    ∧ ((handle_add_to_cart_tool []
          (.obj [("items", .arr [.obj [("name", .str "")]])]) "f").1).lookup "f"
        = some [⟨"", 1, []⟩] :=
  ⟨rfl, Store.lookup_insert_self [] "f" [⟨"", 1, []⟩]⟩

/-- C6 (amended): an `add_to_cart` call whose arguments fail deserialization —
`items` missing, an item's `name` absent or not a string, or wrong field
types — returns the tool-call error `"Invalid arguments: …"`, wrapped by the
dispatcher as JSON-RPC code -32602 with HTTP 200, and leaves the store
untouched; an empty-string `name`, however, is accepted. -/
theorem C6_validation :
    (∀ (store : Store) (args : Json) (fresh e : String),
        parseAddToCartInput args = .error e →
        handle_add_to_cart_tool store args fresh
          = (store, .error ("Invalid arguments: " ++ e)))
    ∧ (∀ fields : List (String × Json), Json.getField (.obj fields) "items" = none →
        parseAddToCartInput (.obj fields) = .error "missing field items")
    ∧ (∀ fields : List (String × Json), Json.getField (.obj fields) "name" = none →
        parseCartItem (.obj fields) = .error "missing field name")
    ∧ (∀ (fields : List (String × Json)) (j : Json),
        Json.getField (.obj fields) "name" = some j → Json.asStr j = none →
        parseCartItem (.obj fields) = .error "invalid type for name")
    ∧ (∀ (store : Store) (fresh html e : String) (b : Json) (req : JsonRpcRequest),
        parseJsonRpcRequest b = some req →
        req.method = "tools/call" →
        ((req.params.getD .null).getField "name").bind Json.asStr = some TOOL_NAME →
        parseAddToCartInput (((req.params.getD .null).getField "arguments").getD .null)
          = .error e →
        handle_mcp store (some b) fresh html
          = (store, 200, .error (req.id.getD .null) (-32602)
              ("Invalid arguments: " ++ e))) := by
  refine ⟨add_tool_of_parse_error, ?_, ?_, ?_, ?_⟩
  · intro fields h
    simp [parseAddToCartInput, h]
  · intro fields h
    simp [parseCartItem, h]
  · intro fields j h1 h2
    rcases j with _ | b | q | s | elems | flds <;> simp_all [Json.asStr] <;>
      simp [parseCartItem, h1]
  · intro store fresh html e b req hb hm hname hargs
    simp only [handle_mcp, hb, hm]
    norm_num
    simp only [hname, Option.getD_some, handle_tool_call, if_pos rfl]
    rw [add_tool_of_parse_error store _ fresh e hargs]
    simp [Except.map]

/-- C6 witness: `tools/call` of `add_to_cart` with `arguments` an array (not
an object) is answered with JSON-RPC error -32602, HTTP 200, and an
unchanged store. -/
theorem C6_validation_witness :
    handle_mcp [] (some (.obj [("method", .str "tools/call"), ("id", .num 3),
        ("params", .obj [("name", .str "add_to_cart"), ("arguments", .arr [])])])) "f" "h"
      = ([], 200, .error (.num 3) (-32602)
          ("Invalid arguments: " ++ "invalid type for AddToCartInput")) :=
  C6_validation.2.2.2.2 [] "f" "h" "invalid type for AddToCartInput"
    (.obj [("method", .str "tools/call"), ("id", .num 3),
      ("params", .obj [("name", .str "add_to_cart"), ("arguments", .arr [])])])
    ⟨none, "tools/call",
      some (.obj [("name", .str "add_to_cart"), ("arguments", .arr [])]), some (.num 3)⟩
    rfl rfl rfl rfl

/-- C7: a POST body that is not valid JSON, or whose JSON fails to
deserialize as a JSON-RPC request (in particular when `method` is missing),
is answered with HTTP 400 and the envelope `{id: null, code: -32700,
message: "Parse error"}`; every request that does deserialize — including one
with an unrecognized method — is answered with HTTP 200, an unknown method
getting code -32601 with the request's id echoed. -/
theorem C7_parse_error :
    (∀ (store : Store) (fresh html : String),
        handle_mcp store none fresh html
          = (store, 400, .error .null (-32700) "Parse error"))
    ∧ (∀ (store : Store) (fresh html : String) (b : Json),
        parseJsonRpcRequest b = none →
        handle_mcp store (some b) fresh html
          = (store, 400, .error .null (-32700) "Parse error"))
    ∧ (∀ fields : List (String × Json), Json.getField (.obj fields) "method" = none →
        parseJsonRpcRequest (.obj fields) = none)
    ∧ (∀ (store : Store) (fresh html : String) (b : Json) (req : JsonRpcRequest),
        parseJsonRpcRequest b = some req →
        (handle_mcp store (some b) fresh html).2.1 = 200)
    ∧ (∀ (store : Store) (fresh html : String) (b : Json) (req : JsonRpcRequest),
        parseJsonRpcRequest b = some req →
        req.method ∉ (["initialize", "notifications/initialized", "tools/list",
          "resources/list", "resources/read", "tools/call", "ping"] : List String) →
        handle_mcp store (some b) fresh html
          = (store, 200, .error (req.id.getD .null) (-32601) "Method not found")) := by
  refine ⟨?_, ?_, ?_, ?_, ?_⟩
  · intro store fresh html
    rfl
  · intro store fresh html b h
    simp [handle_mcp, h]
  · intro fields h
    simp [parseJsonRpcRequest, h]
  · intro store fresh html b req hb
    simp only [handle_mcp, hb]
    split_ifs <;> try rfl
    split <;> rfl
  · intro store fresh html b req hb hnotin
    simp only [List.mem_cons, List.mem_singleton, not_or] at hnotin
    obtain ⟨h1, h2, h3, h4, h5, h6, h7⟩ := hnotin
    simp [handle_mcp, hb, h1, h2, h3, h4, h5, h6, h7]

/-- C7 witness: a request with unknown method `"nope"` and id 7 gets HTTP 200
and the -32601 "Method not found" envelope echoing id 7. -/
theorem C7_parse_error_witness :
    handle_mcp [] (some (.obj [("method", .str "nope"), ("id", .num 7)])) "f" "h"
      = ([], 200, .error (.num 7) (-32601) "Method not found") :=
  C7_parse_error.2.2.2.2 [] "f" "h" (.obj [("method", .str "nope"), ("id", .num 7)])
    ⟨none, "nope", none, some (.num 7)⟩ rfl (by decide)

/-- C8: frame property — a `sync_cart`, `add_to_cart`, or `checkout` whose
resolved cart id differs from `k` (and an `add_to_cart`/`checkout` whose
arguments fail to parse, which touches no cart at all) leaves the stored list
for `k` unchanged. -/
theorem C8_frame (store : Store) (k : String) :
    (∀ (p : AddToCartInput) (sid : String),
        k ≠ get_or_default_cart_id p.cart_id sid →
        ((sync_cart store p sid).1).lookup k = store.lookup k)
    ∧ (∀ (args : Json) (fresh : String),
        (∀ input : AddToCartInput, parseAddToCartInput args = .ok input →
            k ≠ get_or_create_cart_id input.cart_id fresh) →
        ((handle_add_to_cart_tool store args fresh).1).lookup k = store.lookup k)
    ∧ (∀ (args : Json) (fresh : String),
        (∀ cid : Option String, parseCheckoutInput args = .ok cid →
            k ≠ get_or_create_cart_id cid fresh) →
        ((handle_checkout_tool store args fresh).1).lookup k = store.lookup k) := by
  refine ⟨?_, ?_, ?_⟩
  · intro p sid hk
    exact Store.lookup_insert_ne store _ k p.items hk
  · intro args fresh hk
    rcases hp : parseAddToCartInput args with e | input
    · rw [add_tool_of_parse_error store args fresh e hp]
    · rw [add_tool_of_parse_ok store args fresh input hp]
      exact Store.lookup_insert_ne store _ k _ (hk input hp)
  · intro args fresh hk
    rcases hp : parseCheckoutInput args with e | cid
    · simp only [handle_checkout_tool, hp]
    · have hbody : (handle_checkout_tool store args fresh).1
          = (store.remove (get_or_create_cart_id cid fresh)).2 := by
        simp only [handle_checkout_tool, hp]
        rcases store.remove (get_or_create_cart_id cid fresh) with ⟨r1, r2⟩
        cases r1 <;> rfl
      rw [hbody]
      exact Store.lookup_remove_ne store _ k (hk cid hp)

/-- C8 witness: syncing items into cart `"b"` leaves the stored list of the
distinct cart `"a"` unchanged. -/
theorem C8_frame_witness :
    ((sync_cart [("a", [⟨"X", 1, []⟩])] ⟨[⟨"Y", 1, []⟩], some "b"⟩ "s").1).lookup "a"
      = Store.lookup [("a", [⟨"X", 1, []⟩])] "a" :=
  (C8_frame [("a", [⟨"X", 1, []⟩])] "a").1 ⟨[⟨"Y", 1, []⟩], some "b"⟩ "s" (by decide)

/-- C9: item quantities deserialize as `u32`: a negative or fractional
`quantity` makes the item (hence the whole `add_to_cart` input) fail to
parse, so the call returns the `"Invalid arguments"` -32602 error with the
store untouched, while `quantity: 0` parses and is stored verbatim. -/
theorem C9_quantity_u32 :
    (∀ (fields : List (String × Json)) (s : String) (q : ℚ),
        Json.getField (.obj fields) "name" = some (.str s) →
        Json.getField (.obj fields) "quantity" = some (.num q) →
        q.num < 0 ∨ q.den ≠ 1 →
        parseCartItem (.obj fields) = .error "invalid quantity value")
    ∧ (∀ (j : Json) (rest : List Json) (e : String),
        parseCartItem j = .error e → parseItems (j :: rest) = .error e)
    ∧ (∀ (fields : List (String × Json)) (elems : List Json) (e : String),
        Json.getField (.obj fields) "items" = some (.arr elems) →
        parseItems elems = .error e →
        parseAddToCartInput (.obj fields) = .error e)
    ∧ (∀ (store : Store) (args : Json) (fresh e : String),
        parseAddToCartInput args = .error e →
        handle_add_to_cart_tool store args fresh
          = (store, .error ("Invalid arguments: " ++ e)))
    ∧ (∀ s : String, parseCartItem (.obj [("name", .str s), ("quantity", .num 0)])
          = .ok ⟨s, 0, []⟩)
    ∧ (∀ (fresh s : String),
        ((handle_add_to_cart_tool []
            (.obj [("items", .arr [.obj [("name", .str s), ("quantity", .num 0)]])])
            fresh).1).lookup fresh = some [⟨s, 0, []⟩]) := by
  refine ⟨?_, ?_, ?_, add_tool_of_parse_error, fun _ => rfl, ?_⟩
  · intro fields s q h1 h2 h3
    have hc : ¬(q.den = 1 ∧ 0 ≤ q.num ∧ q.num < 2 ^ 32) := by
      rintro ⟨hd, hge, _⟩
      rcases h3 with hlt | hden
      · omega
      · exact hden hd
    simp only [parseCartItem, h1, h2, parseU32]
    rw [if_neg hc]
    rfl
  · intro j rest e hp
    simp only [parseItems, hp]
    rfl
  · intro fields elems e h1 h2
    simp only [parseAddToCartInput, h1, h2]
    rfl
  · intro fresh s
    exact Store.lookup_insert_self [] fresh [⟨s, 0, []⟩]

/-- C9 witness: `quantity: -1` is rejected by the `u32` deserializer. -/
theorem C9_quantity_u32_witness :
    parseCartItem (.obj [("name", .str "Z"), ("quantity", .num (-1))])
      = .error "invalid quantity value" :=
  C9_quantity_u32.1 [("name", .str "Z"), ("quantity", .num (-1))] "Z" (-1)
    rfl rfl (by decide)
